import Mathlib

/-!
Shallow embedding of the `dashboard-couting` counting service
(`src/counting-service/main.go`, plus the earlier Redis-based variant in
`src/unnamed/part_004`).  Go `int64` arithmetic is modelled on `Int` with an
explicit wrap at 2^64; strings are Lean `String`s, except for the byte-level
parsing helpers (`strconv.Atoi`, `net.SplitHostPort`) which work on
`List Char`.  Fallible Go calls `(T, error)` are modelled as
`Except String T`; where a store method's outcome depends on an external
system (the database), the outcome is passed to the embedded function as an
explicit argument.
-/

/-- Wrap an integer into the signed 64-bit range, exactly as Go `int64`
arithmetic overflows. -/
def int64Wrap (x : Int) : Int :=
  (x + 9223372036854775808) % 18446744073709551616 - 9223372036854775808

/-- Largest Go `int64` value. -/
def maxInt64 : Int := 9223372036854775807

theorem int64Wrap_of_bounded (x : Int)
    (h1 : -9223372036854775808 ≤ x) (h2 : x ≤ 9223372036854775807) :
    int64Wrap x = x := by
  unfold int64Wrap
  omega

theorem int64Wrap_add_left (a b : Int) :
    int64Wrap (int64Wrap a + b) = int64Wrap (a + b) := by
  unfold int64Wrap
  omega

/-- Count (main.go:344-349): the JSON response envelope.  `DBNode` and
`Message` carry `omitempty`, so they are present in the encoded JSON iff
non-empty. -/
structure Count where
  count : Int
  hostname : String
  dbNode : String
  message : String
  deriving DecidableEq, Repr

/-- Names of the JSON fields actually emitted by `encoding/json` for a
`Count` value, honouring the `omitempty` tags on `db_node` and `message`. -/
def Count.jsonFields (c : Count) : List String :=
  ["count", "hostname"]
    ++ (if c.dbNode = "" then [] else ["db_node"])
    ++ (if c.message = "" then [] else ["message"])

/-- An HTTP response produced by the handler: `encoding/json` writing without
an explicit `WriteHeader` yields status 200. -/
structure HTTPResponse where
  status : Nat
  body : Count
  deriving DecidableEq, Repr

/-- writeJSON (main.go:187-190): sets the content type and encodes the body;
no `WriteHeader` call, so the implicit status is 200. -/
def writeJSON (payload : Count) : HTTPResponse :=
  { status := 200, body := payload }

/-- CountHandler.ServeHTTP (main.go:358-386).  The outcomes of the store's
`Incr` and `GetDBNode` calls are passed explicitly; the Go error value is
its message string. -/
def CountHandler.ServeHTTP (hostname : String)
    (incrResult : Except String Int) (dbNodeResult : Except String String) :
    HTTPResponse :=
  match incrResult with
  | .error e =>
      writeJSON { count := -1, hostname := hostname, dbNode := ""
                  message := "DB Error: " ++ e }
  | .ok newCount =>
      let base : Count :=
        { count := newCount, hostname := hostname, dbNode := "", message := "" }
      match dbNodeResult with
      | .ok dbNode => writeJSON { base with dbNode := dbNode }
      | .error _ => writeJSON base

/-- InMemoryStore (main.go:36-40): a mutex-guarded `int64` counter.  The
mutex makes each `Incr` an atomic read-modify-write, so its sequential
behaviour is the function below on the store state. -/
structure InMemoryStore where
  count : Int
  deriving DecidableEq, Repr

/-- InMemoryStore.Incr (main.go:42-48): `m.count++` on `int64`, returning the
new value; never returns an error. -/
def InMemoryStore.Incr (m : InMemoryStore) : Int × InMemoryStore :=
  let c := int64Wrap (m.count + 1)
  (c, { count := c })

/-- InMemoryStore.GetDBNode (main.go:50-53): returns `("", nil)`. -/
def InMemoryStore.GetDBNode (_m : InMemoryStore) : Except String String :=
  Except.ok ""

/-- Run `n` consecutive `Incr` calls, collecting the returned values and the
final store state.  Because each `Incr` holds the mutex for the whole
read-modify-write, every concurrent execution of `n` calls is equivalent to
this sequential run in some order. -/
def InMemoryStore.runIncrs : InMemoryStore → Nat → List Int × InMemoryStore
  | m, 0 => ([], m)
  | m, n + 1 =>
      let step := m.Incr
      let rest := step.2.runIncrs n
      (step.1 :: rest.1, rest.2)

/-- One request served end-to-end over an in-memory store (main.go:358-386
with `store = &InMemoryStore`): `Incr` always succeeds, then `GetDBNode` is
consulted. -/
def InMemoryStore.handleRequest (hostname : String) (m : InMemoryStore) :
    HTTPResponse × InMemoryStore :=
  let step := m.Incr
  (CountHandler.ServeHTTP hostname (Except.ok step.1) (step.2.GetDBNode), step.2)

theorem InMemoryStore.runIncrs_fst (n : Nat) (m : InMemoryStore) :
    (m.runIncrs n).1 = (List.range n).map (fun i : Nat => int64Wrap (m.count + (i : Int) + 1)) := by
  induction n generalizing m with
  | zero => simp [runIncrs]
  | succ n ih =>
      have h2 : ((m.Incr.2).runIncrs n).1
          = (List.range n).map (fun i : Nat => int64Wrap (m.count + (i : Int) + 2)) := by
        rw [ih]
        refine List.map_congr_left fun i _ => ?_
        show int64Wrap (int64Wrap (m.count + 1) + (i : Int) + 1) = _
        rw [add_assoc, int64Wrap_add_left]
        exact congrArg int64Wrap (by ring)
      show m.Incr.1 :: ((m.Incr.2).runIncrs n).1 = _
      rw [h2, List.range_succ_eq_map, List.map_cons, List.map_map]
      refine congrArg₂ List.cons ?_ ?_
      · show int64Wrap (m.count + 1) = _
        exact congrArg int64Wrap (by push_cast; ring)
      · refine List.map_congr_left fun i _ => ?_
        show int64Wrap (m.count + (i : Int) + 2)
            = int64Wrap (m.count + ((Nat.succ i : Nat) : Int) + 1)
        exact congrArg int64Wrap (by push_cast; ring)

theorem InMemoryStore.runIncrs_snd (n : Nat) (m : InMemoryStore) :
    (m.runIncrs (n + 1)).2.count = int64Wrap (m.count + (n : Int) + 1) := by
  induction n generalizing m with
  | zero => simp [runIncrs, Incr]
  | succ n ih =>
      show ((m.Incr.2).runIncrs (n + 1)).2.count = _
      rw [ih]
      show int64Wrap (int64Wrap (m.count + 1) + (n : Int) + 1) = _
      rw [add_assoc, int64Wrap_add_left]
      exact congrArg int64Wrap (by push_cast; ring)

theorem int64Wrap_small (n : Nat) (h : n ≤ 9223372036854775807) :
    int64Wrap (n : Int) = (n : Int) := by
  apply int64Wrap_of_bounded <;> omega

theorem InMemoryStore.runIncrs_fresh_getElem (N : Nat) (h1 : 1 ≤ N) :
    ((InMemoryStore.mk 0).runIncrs N).1[N - 1]? = some (int64Wrap (N : Int)) := by
  rw [InMemoryStore.runIncrs_fst]
  rw [List.getElem?_map]
  rw [List.getElem?_range (by omega)]
  simp only [Option.map_some]
  refine congrArg some (congrArg int64Wrap ?_)
  have : ((N - 1 : Nat) : Int) = (N : Int) - 1 := by omega
  simp only [this]
  ring

/-- C1 (amended): for every N with 1 ≤ N ≤ 2^63 - 1, the Nth of N sequential
`Incr` calls on a fresh in-memory store returns N; and three sequential
requests to the count handler over a fresh in-memory store return counts
1, 2, 3 with the same hostname each time and no `message` field.  (For
N ≥ 2^63 the Go `int64` counter overflows, see the counterexample.) -/
theorem C1_sequential_increments (hostname : String) (N : Nat)
    (h1 : 1 ≤ N) (h2 : N ≤ 9223372036854775807) :
    ((InMemoryStore.mk 0).runIncrs N).1[N - 1]? = some (N : Int) ∧
    (let s1 := (InMemoryStore.mk 0).handleRequest hostname
     let s2 := s1.2.handleRequest hostname
     let s3 := s2.2.handleRequest hostname
     s1.1.body.count = 1 ∧ s2.1.body.count = 2 ∧ s3.1.body.count = 3 ∧
     s1.1.body.hostname = hostname ∧ s2.1.body.hostname = hostname ∧
     s3.1.body.hostname = hostname ∧
     s1.1.body.message = "" ∧ s2.1.body.message = "" ∧ s3.1.body.message = "" ∧
     "message" ∉ s1.1.body.jsonFields ∧ "message" ∉ s2.1.body.jsonFields ∧
     "message" ∉ s3.1.body.jsonFields) := by
  constructor
  · rw [InMemoryStore.runIncrs_fresh_getElem N h1, int64Wrap_small N h2]
  · have w1 : int64Wrap 1 = 1 := by unfold int64Wrap; omega
    simp only [InMemoryStore.handleRequest, InMemoryStore.Incr, InMemoryStore.GetDBNode,
      CountHandler.ServeHTTP, writeJSON, Count.jsonFields, zero_add, w1]
    have w2 : int64Wrap (1 + 1) = 2 := by unfold int64Wrap; omega
    simp only [w2]
    have w3 : int64Wrap (2 + 1) = 3 := by unfold int64Wrap; omega
    simp only [w3]
    simp

/-- Witness for C1: instantiation at N = 3 with hostname "host". -/
theorem C1_sequential_increments_witness :
    ((InMemoryStore.mk 0).runIncrs 3).1[2]? = some (3 : Int) :=
  (C1_sequential_increments "host" 3 (by decide)
    (by norm_num)).1

/-- Counterexample to C1 as stated: at N = 2^63 the Go `int64` counter of the
in-memory store overflows, so the Nth call returns -2^63, not N. -/
theorem C1_counterexample :
    ((InMemoryStore.mk 0).runIncrs 9223372036854775808).1[9223372036854775807]? =
      some (-9223372036854775808 : Int) ∧
    (-9223372036854775808 : Int) ≠ (9223372036854775808 : Int) := by
  constructor
  · have h := InMemoryStore.runIncrs_fresh_getElem 9223372036854775808 (by norm_num)
    rw [show (9223372036854775808 - 1 : Nat) = 9223372036854775807 by norm_num] at h
    rw [h]
    refine congrArg some ?_
    unfold int64Wrap
    norm_num
  · norm_num

theorem string_append_left_ne_empty (a b : String) (h : a ≠ "") : a ++ b ≠ "" := by
  intro hab
  apply h
  have := congrArg String.length hab
  rw [String.length_append] at this
  have ha : a.length = 0 := by
    have : a.length + b.length = 0 := this
    omega
  cases a with
  | mk data =>
      cases data with
      | nil => rfl
      | cons c cs => simp [String.length] at ha

/-- C2: every request gets an ordinary 200 JSON response with the hostname
populated; if `Incr` fails the body has `count = -1` and a non-empty
`message` (present in the JSON); if `Incr` succeeds the `message` field is
absent.  The `message` field is present iff the request degraded. -/
theorem C2_degradation_envelope (hostname : String)
    (incrResult : Except String Int) (dbNodeResult : Except String String) :
    (CountHandler.ServeHTTP hostname incrResult dbNodeResult).status = 200 ∧
    (CountHandler.ServeHTTP hostname incrResult dbNodeResult).body.hostname = hostname ∧
    (∀ e, incrResult = Except.error e →
      (CountHandler.ServeHTTP hostname incrResult dbNodeResult).body.count = -1 ∧
      (CountHandler.ServeHTTP hostname incrResult dbNodeResult).body.message ≠ "" ∧
      "message" ∈ (CountHandler.ServeHTTP hostname incrResult dbNodeResult).body.jsonFields) ∧
    (∀ n, incrResult = Except.ok n →
      (CountHandler.ServeHTTP hostname incrResult dbNodeResult).body.message = "" ∧
      "message" ∉ (CountHandler.ServeHTTP hostname incrResult dbNodeResult).body.jsonFields) ∧
    ("message" ∈ (CountHandler.ServeHTTP hostname incrResult dbNodeResult).body.jsonFields
      ↔ ∃ e, incrResult = Except.error e) := by
  have hmsg : ∀ e : String, "DB Error: " ++ e ≠ "" :=
    fun e => string_append_left_ne_empty "DB Error: " e (by decide)
  cases incrResult with
  | error e =>
      refine ⟨rfl, rfl, ?_, ?_, ?_⟩
      · intro e' _
        refine ⟨rfl, hmsg e, ?_⟩
        simp [CountHandler.ServeHTTP, writeJSON, Count.jsonFields, hmsg e]
      · intro n hn; cases hn
      · simp [CountHandler.ServeHTTP, writeJSON, Count.jsonFields, hmsg e]
  | ok n =>
      cases dbNodeResult with
      | ok s =>
          refine ⟨rfl, rfl, ?_, ?_, ?_⟩
          · intro e he; cases he
          · intro n' _
            constructor
            · rfl
            · simp [CountHandler.ServeHTTP, writeJSON, Count.jsonFields]
          · simp [CountHandler.ServeHTTP, writeJSON, Count.jsonFields]
      | error _ =>
          refine ⟨rfl, rfl, ?_, ?_, ?_⟩
          · intro e he; cases he
          · intro n' _
            constructor
            · rfl
            · simp [CountHandler.ServeHTTP, writeJSON, Count.jsonFields]
          · simp [CountHandler.ServeHTTP, writeJSON, Count.jsonFields]

/-- Witness for C2: a concrete degraded request and a concrete successful
request. -/
theorem C2_degradation_envelope_witness :
    (CountHandler.ServeHTTP "h" (Except.error "connection refused")
      (Except.error "connection refused")).body.count = -1 ∧
    (CountHandler.ServeHTTP "h" (Except.ok 7) (Except.ok "Node 1")).body.message = "" :=
  ⟨((C2_degradation_envelope "h" (Except.error "connection refused")
      (Except.error "connection refused")).2.2.1 "connection refused" rfl).1,
   ((C2_degradation_envelope "h" (Except.ok 7) (Except.ok "Node 1")).2.2.2.1 7 rfl).1⟩

/-- C4: when `Incr` succeeds with value n, a failure of `GetDBNode` never
changes the returned count and never suppresses the `count` field: the body
still carries n and only the `db_node` field is omitted.  On `GetDBNode`
success the descriptor is included without affecting the count. -/
theorem C4_getdbnode_failure_harmless (hostname : String) (n : Int)
    (dbNodeResult : Except String String) :
    (CountHandler.ServeHTTP hostname (Except.ok n) dbNodeResult).body.count = n ∧
    "count" ∈ (CountHandler.ServeHTTP hostname (Except.ok n) dbNodeResult).body.jsonFields ∧
    (∀ e, dbNodeResult = Except.error e →
      (CountHandler.ServeHTTP hostname (Except.ok n) dbNodeResult).body.dbNode = "" ∧
      "db_node" ∉ (CountHandler.ServeHTTP hostname (Except.ok n) dbNodeResult).body.jsonFields) ∧
    (∀ s, dbNodeResult = Except.ok s →
      (CountHandler.ServeHTTP hostname (Except.ok n) dbNodeResult).body.dbNode = s) := by
  cases dbNodeResult with
  | ok s =>
      refine ⟨rfl, ?_, ?_, ?_⟩
      · simp [CountHandler.ServeHTTP, writeJSON, Count.jsonFields]
      · intro e he; cases he
      · intro s' hs; cases hs; rfl
  | error e =>
      refine ⟨rfl, ?_, ?_, ?_⟩
      · simp [CountHandler.ServeHTTP, writeJSON, Count.jsonFields]
      · intro e' _
        refine ⟨rfl, ?_⟩
        simp [CountHandler.ServeHTTP, writeJSON, Count.jsonFields]
      · intro s hs; cases hs

/-- Witness for C4: a concrete successful increment with a failing
`GetDBNode`. -/
theorem C4_getdbnode_failure_harmless_witness :
    (CountHandler.ServeHTTP "h" (Except.ok 5) (Except.error "node down")).body.count = 5 ∧
    "db_node" ∉ (CountHandler.ServeHTTP "h" (Except.ok 5)
      (Except.error "node down")).body.jsonFields :=
  ⟨(C4_getdbnode_failure_harmless "h" 5 (Except.error "node down")).1,
   ((C4_getdbnode_failure_harmless "h" 5 (Except.error "node down")).2.2.1
      "node down" rfl).2⟩

/-- dbReconnectRetryTimeout (main.go:28): 2 seconds, in nanoseconds. -/
def dbReconnectRetryTimeout : Int := 2000000000

/-- Observable events of one `CockroachStore.Incr` call: an increment
attempt (tagged with the deadline of the context it runs under, `none` for
the caller's request context), the swap of the pool handle under the write
lock, and the closing of a handle. -/
inductive DBEvent where
  | attempt (timeoutNs : Option Int)
  | swap (old : Option Nat) (new : Nat)
  | closeHandle (h : Nat)
  deriving DecidableEq, Repr

/-- Connection-pool state of a CockroachStore (main.go:56-61): the swappable
`*sql.DB` handle, identified by a number (`none` models a nil handle). -/
structure CockroachState where
  db : Option Nat
  deriving DecidableEq, Repr

/-- CockroachStore.reconnect (main.go:103-122): open a fresh pool (outcome
passed explicitly); on success swap it in under the write lock and only then
close the old handle; on failure leave the state untouched. -/
def CockroachStore.reconnect (st : CockroachState) (openResult : Except String Nat) :
    Except String CockroachState × List DBEvent :=
  match openResult with
  | .error e => (.error e, [])
  | .ok newDB =>
      (.ok { db := some newDB },
       DBEvent.swap st.db newDB ::
         (match st.db with
          | some old => [DBEvent.closeHandle old]
          | none => []))

/-- Counts the increment attempts in an event trace. -/
def countAttempts (evs : List DBEvent) : Nat :=
  (evs.filter fun e => match e with | DBEvent.attempt _ => true | _ => false).length

/-- Counts the pool swaps (reconnects that replaced the handle) in a trace. -/
def countSwaps (evs : List DBEvent) : Nat :=
  (evs.filter fun e => match e with | DBEvent.swap _ _ => true | _ => false).length

/-- CockroachStore.Incr (main.go:156-171): try `incrOnce`; on failure
reconnect once, and if the reconnect succeeds retry `incrOnce` exactly once
under a fresh 2-second context; if the reconnect fails, return an error
wrapping the original failure.  The outcomes of the two `incrOnce` calls and
of `openCockroachDB` are passed explicitly; the returned trace records the
attempts and pool operations in order. -/
def CockroachStore.Incr (st : CockroachState)
    (firstResult : Except String Int) (openResult : Except String Nat)
    (secondResult : Except String Int) :
    Except String Int × List DBEvent × CockroachState :=
  match firstResult with
  | .ok count => (.ok count, [DBEvent.attempt none], st)
  | .error e =>
      match CockroachStore.reconnect st openResult with
      | (.error re, evs) =>
          (.error (e ++ " (reconnect failed: " ++ re ++ ")"),
           DBEvent.attempt none :: evs, st)
      | (.ok st', evs) =>
          (secondResult,
           (DBEvent.attempt none :: evs) ++ [DBEvent.attempt (some dbReconnectRetryTimeout)],
           st')

/-- C3: a `CockroachStore.Incr` call never makes more than two increment
attempts nor more than one reconnect; when the first attempt succeeds there
is no reconnect; when it fails and the pool reopens, the handle is swapped
exactly once (the old handle closed only after the swap, as the trace order
shows) and `incrOnce` is retried exactly once under the bounded 2-second
context; when the reconnect itself fails, the error wraps the original
failure and there is no second attempt. -/
theorem C3_reconnect_retry_once (st : CockroachState)
    (firstResult : Except String Int) (openResult : Except String Nat)
    (secondResult : Except String Int) :
    countAttempts (CockroachStore.Incr st firstResult openResult secondResult).2.1 ≤ 2 ∧
    countSwaps (CockroachStore.Incr st firstResult openResult secondResult).2.1 ≤ 1 ∧
    (∀ n, firstResult = Except.ok n →
      CockroachStore.Incr st firstResult openResult secondResult
        = (Except.ok n, [DBEvent.attempt none], st)) ∧
    (∀ e re, firstResult = Except.error e → openResult = Except.error re →
      CockroachStore.Incr st firstResult openResult secondResult
        = (Except.error (e ++ " (reconnect failed: " ++ re ++ ")"),
           [DBEvent.attempt none], st)) ∧
    (∀ e newDB, firstResult = Except.error e → openResult = Except.ok newDB →
      CockroachStore.Incr st firstResult openResult secondResult
        = (secondResult,
           DBEvent.attempt none :: DBEvent.swap st.db newDB ::
             ((match st.db with
               | some old => [DBEvent.closeHandle old]
               | none => []) ++ [DBEvent.attempt (some dbReconnectRetryTimeout)]),
           { db := some newDB })) := by
  cases firstResult with
  | ok n =>
      refine ⟨?_, ?_, ?_, ?_, ?_⟩
      · simp [CockroachStore.Incr, countAttempts]
      · simp [CockroachStore.Incr, countSwaps]
      · intro n' hn; cases hn; rfl
      · intro e re he _; cases he
      · intro e newDB he _; cases he
  | error e =>
      cases openResult with
      | error re =>
          refine ⟨?_, ?_, ?_, ?_, ?_⟩
          · simp [CockroachStore.Incr, CockroachStore.reconnect, countAttempts]
          · simp [CockroachStore.Incr, CockroachStore.reconnect, countSwaps]
          · intro n hn; cases hn
          · intro e' re' he hre; cases he; cases hre; rfl
          · intro e' newDB _ hre; cases hre
      | ok newDB =>
          refine ⟨?_, ?_, ?_, ?_, ?_⟩
          · cases hdb : st.db <;>
              simp [CockroachStore.Incr, CockroachStore.reconnect, countAttempts, hdb,
                List.filter]
          · cases hdb : st.db <;>
              simp [CockroachStore.Incr, CockroachStore.reconnect, countSwaps, hdb,
                List.filter]
          · intro n hn; cases hn
          · intro e' re' _ hre; cases hre
          · intro e' newDB' he hre; cases he; cases hre
            simp [CockroachStore.Incr, CockroachStore.reconnect]

/-- Witness for C3: concrete outcomes for the three cases (first attempt
fails, reconnect succeeds with handle 2 over old handle 1, retry returns
42). -/
theorem C3_reconnect_retry_once_witness :
    CockroachStore.Incr { db := some 1 } (Except.error "broken pipe")
        (Except.ok 2) (Except.ok 42)
      = (Except.ok 42,
         [DBEvent.attempt none, DBEvent.swap (some 1) 2, DBEvent.closeHandle 1,
          DBEvent.attempt (some dbReconnectRetryTimeout)],
         { db := some 2 }) := by
  have h := (C3_reconnect_retry_once { db := some 1 } (Except.error "broken pipe")
    (Except.ok 2) (Except.ok 42)).2.2.2.2 "broken pipe" 2 rfl rfl
  simpa using h

/-- Outcome of the storage-mode switch in `main` (main.go:303-325): either an
in-memory store is constructed, or the CockroachDB path is entered with the
given `PG_URL`, or the process exits via `log.Fatal`. -/
inductive StoreChoice where
  | memory (store : InMemoryStore)
  | cockroach (pgURL : String)
  | fatal (msg : String)
  deriving DecidableEq, Repr

/-- Storage-mode selection from `main` (main.go:303-325): `""` and
`"memory"` build a fresh in-memory store; `"cockroach"` requires a non-empty
`PG_URL` (otherwise `log.Fatal`); any other mode prints a warning (the
returned Bool) and falls back to a fresh in-memory store. -/
def selectStore (storageMode pgURL : String) : StoreChoice × Bool :=
  if storageMode = "" ∨ storageMode = "memory" then
    (StoreChoice.memory { count := 0 }, false)
  else if storageMode = "cockroach" then
    if pgURL = "" then
      (StoreChoice.fatal "PG_URL must be set when STORAGE_MODE=cockroach", false)
    else
      (StoreChoice.cockroach pgURL, false)
  else
    (StoreChoice.memory { count := 0 }, true)

/-- C5: every unrecognized STORAGE_MODE value selects a fresh in-memory store
after logging a warning, never exits, and yields exactly the store that
`STORAGE_MODE=memory` yields. -/
theorem C5_unrecognized_mode_falls_back (storageMode pgURL : String)
    (h1 : storageMode ≠ "") (h2 : storageMode ≠ "memory")
    (h3 : storageMode ≠ "cockroach") :
    selectStore storageMode pgURL = (StoreChoice.memory { count := 0 }, true) ∧
    (selectStore storageMode pgURL).1 = (selectStore "memory" pgURL).1 ∧
    (∀ msg, (selectStore storageMode pgURL).1 ≠ StoreChoice.fatal msg) := by
  have hsel : selectStore storageMode pgURL = (StoreChoice.memory { count := 0 }, true) := by
    unfold selectStore
    rw [if_neg (by simp [h1, h2]), if_neg h3]
  refine ⟨hsel, ?_, ?_⟩
  · rw [hsel]; rfl
  · intro msg; rw [hsel]; simp

/-- Witness for C5: the unrecognized mode string "redis". -/
theorem C5_unrecognized_mode_falls_back_witness :
    selectStore "redis" "" = (StoreChoice.memory { count := 0 }, true) :=
  (C5_unrecognized_mode_falls_back "redis" "" (by decide) (by decide) (by decide)).1

/-- CockroachStore.ensureSchema (main.go:124-136) at the SQL level.  The
table state is `none` when the row `id = 1` is absent and `some v` when it
holds count v.  `CREATE TABLE IF NOT EXISTS` does not change this state;
`INSERT ... ON CONFLICT (id) DO NOTHING` seeds the row with count 0 only
when it is absent and leaves an existing row untouched. -/
def CockroachStore.ensureSchema : Option Int → Option Int
  | none => some 0
  | some v => some v

/-- CockroachStore.incrOnce (main.go:138-154) at the SQL level: run
`ensureSchema`, then `UPDATE counts SET count = count + 1 WHERE id = 1
RETURNING count` in one atomic statement.  A BIGINT overflow makes the
database return an error instead of wrapping. -/
def CockroachStore.incrOnce (db : Option Int) : Except String (Int × Option Int) :=
  match CockroachStore.ensureSchema db with
  | none => Except.error "row missing"
  | some v =>
      if v + 1 > maxInt64 then Except.error "integer out of range"
      else Except.ok (v + 1, some (v + 1))

/-- Run `n` consecutive `incrOnce` statements against the table state,
collecting each outcome.  Each statement is atomic on the database side, so
every concurrent execution of `n` statements is equivalent to this
sequential run in some order. -/
def CockroachStore.runIncrs : Option Int → Nat → List (Except String Int) × Option Int
  | db, 0 => ([], db)
  | db, n + 1 =>
      match CockroachStore.incrOnce db with
      | .error e =>
          let rest := CockroachStore.runIncrs db n
          (.error e :: rest.1, rest.2)
      | .ok (v, db') =>
          let rest := CockroachStore.runIncrs db' n
          (.ok v :: rest.1, rest.2)

theorem CockroachStore.runIncrs_formula (n : Nat) (v : Int)
    (h : v + n ≤ maxInt64) :
    CockroachStore.runIncrs (some v) n
      = ((List.range n).map (fun i : Nat => Except.ok (v + (i : Int) + 1)),
         some (v + (n : Int))) := by
  induction n generalizing v with
  | zero => simp [runIncrs]
  | succ n ih =>
      have hv1 : ¬ (v + 1 > maxInt64) := by
        unfold maxInt64 at h ⊢; push_cast at h; omega
      have hstep : CockroachStore.incrOnce (some v) = Except.ok (v + 1, some (v + 1)) := by
        simp [incrOnce, ensureSchema, hv1]
      have hrec : CockroachStore.runIncrs (some (v + 1)) n
          = ((List.range n).map (fun i : Nat => Except.ok (v + 1 + (i : Int) + 1)),
             some (v + 1 + (n : Int))) := by
        apply ih
        unfold maxInt64 at h ⊢; push_cast at h; omega
      show (match CockroachStore.incrOnce (some v) with
        | .error e =>
            let rest := CockroachStore.runIncrs (some v) n
            (Except.error e :: rest.1, rest.2)
        | .ok (w, db') =>
            let rest := CockroachStore.runIncrs db' n
            (Except.ok w :: rest.1, rest.2)) = _
      rw [hstep]
      simp only [hrec]
      refine congrArg₂ Prod.mk ?_ ?_
      · rw [List.range_succ_eq_map, List.map_cons, List.map_map]
        refine congrArg₂ List.cons (by push_cast; ring_nf) ?_
        refine List.map_congr_left fun i _ => ?_
        show Except.ok (v + 1 + (i : Int) + 1)
            = Except.ok (v + ((Nat.succ i : Nat) : Int) + 1)
        exact congrArg Except.ok (by push_cast; ring)
      · exact congrArg some (by push_cast; ring)

/-- C7: the counter row is created lazily with value 0 by
`INSERT ... ON CONFLICT DO NOTHING` before incrementing, so the first
successful increment against a fresh database returns 1, and re-running the
seeding statement on an existing row never changes the stored count. -/
theorem C7_lazy_row_creation :
    CockroachStore.ensureSchema none = some 0 ∧
    (∀ v : Int, CockroachStore.ensureSchema (some v) = some v) ∧
    CockroachStore.incrOnce none = Except.ok (1, some 1) := by
  refine ⟨rfl, fun v => rfl, ?_⟩
  simp [CockroachStore.incrOnce, CockroachStore.ensureSchema, maxInt64]

/-- Witness for C7: re-seeding the row holding 41 leaves it at 41. -/
theorem C7_lazy_row_creation_witness :
    CockroachStore.ensureSchema (some 41) = some 41 :=
  C7_lazy_row_creation.2.1 41

/-- C6 (amended): for every K with 1 ≤ K ≤ 2^63 - 1, K increments from a
fresh counter — serialized by the in-memory mutex, resp. by the atomicity of
`UPDATE ... RETURNING` — return the K distinct values 1..K exactly, with a
final stored value of K, on both the in-memory and the relational backend.
(For K ≥ 2^63 the in-memory `int64` counter overflows, see the
counterexample.) -/
theorem C6_no_lost_updates (K : Nat) (h1 : 1 ≤ K) (h2 : K ≤ 9223372036854775807) :
    ((InMemoryStore.mk 0).runIncrs K).1
        = (List.range K).map (fun i : Nat => (i : Int) + 1) ∧
    ((InMemoryStore.mk 0).runIncrs K).1.Nodup ∧
    (∀ v : Int, v ∈ ((InMemoryStore.mk 0).runIncrs K).1 ↔ 1 ≤ v ∧ v ≤ (K : Int)) ∧
    ((InMemoryStore.mk 0).runIncrs K).2.count = (K : Int) ∧
    (CockroachStore.runIncrs (some 0) K).1
        = (List.range K).map (fun i : Nat => Except.ok ((i : Int) + 1)) ∧
    (CockroachStore.runIncrs (some 0) K).2 = some (K : Int) := by
  have hvals : ((InMemoryStore.mk 0).runIncrs K).1
      = (List.range K).map (fun i : Nat => (i : Int) + 1) := by
    rw [InMemoryStore.runIncrs_fst]
    refine List.map_congr_left fun i hi => ?_
    rw [List.mem_range] at hi
    show int64Wrap ((0 : Int) + (i : Int) + 1) = (i : Int) + 1
    rw [zero_add]
    apply int64Wrap_of_bounded <;> omega
  have hsql := CockroachStore.runIncrs_formula K 0
    (by unfold maxInt64; omega)
  refine ⟨hvals, ?_, ?_, ?_, ?_, ?_⟩
  · rw [hvals]
    exact (List.nodup_range K).map (fun a b hab => by omega)
  · intro v
    rw [hvals]
    simp only [List.mem_map, List.mem_range]
    constructor
    · rintro ⟨i, hi, rfl⟩
      omega
    · rintro ⟨hv1, hv2⟩
      exact ⟨(v - 1).toNat, by omega, by omega⟩
  · have h := InMemoryStore.runIncrs_snd (K - 1) (InMemoryStore.mk 0)
    rw [show K - 1 + 1 = K by omega] at h
    rw [h]
    have hcast : (0 : Int) + ((K - 1 : Nat) : Int) + 1 = (K : Int) := by omega
    rw [hcast]
    apply int64Wrap_of_bounded <;> omega
  · rw [hsql]
    exact List.map_congr_left fun i _ => congrArg Except.ok (by ring)
  · rw [hsql]
    exact congrArg some (by ring)

/-- Witness for C6: instantiation at K = 3. -/
theorem C6_no_lost_updates_witness :
    ((InMemoryStore.mk 0).runIncrs 3).2.count = (3 : Int) ∧
    (CockroachStore.runIncrs (some 0) 3).2 = some (3 : Int) :=
  ⟨(C6_no_lost_updates 3 (by decide) (by norm_num)).2.2.2.1,
   (C6_no_lost_updates 3 (by decide) (by norm_num)).2.2.2.2.2⟩

/-- Counterexample to C6 as stated: at K = 2^63 the in-memory `int64`
counter overflows, so one returned value is -2^63 (below 1, outside
1..K) and the final stored value is not K. -/
theorem C6_counterexample :
    (-9223372036854775808 : Int) ∈
        ((InMemoryStore.mk 0).runIncrs 9223372036854775808).1 ∧
    ¬ (1 : Int) ≤ (-9223372036854775808 : Int) ∧
    ((InMemoryStore.mk 0).runIncrs 9223372036854775808).2.count
        ≠ (9223372036854775808 : Int) := by
  refine ⟨?_, by norm_num, ?_⟩
  · rw [InMemoryStore.runIncrs_fst]
    rw [List.mem_map]
    refine ⟨9223372036854775807, ?_, ?_⟩
    · rw [List.mem_range]; norm_num
    · show int64Wrap ((0 : Int) + ((9223372036854775807 : Nat) : Int) + 1) = _
      unfold int64Wrap
      norm_num
  · have h := InMemoryStore.runIncrs_snd 9223372036854775807 (InMemoryStore.mk 0)
    rw [show (9223372036854775807 + 1 : Nat) = 9223372036854775808 by norm_num] at h
    rw [h]
    show int64Wrap ((0 : Int) + ((9223372036854775807 : Nat) : Int) + 1) ≠ _
    unfold int64Wrap
    norm_num

/-- InMemoryStore.GetInfo (src/unnamed/part_004:63-66): formats a static
descriptor around the machine hostname; never returns an error. -/
def InMemoryStore.GetInfo (hostname : String) : Except String String :=
  Except.ok ("In-Memory (Host: " ++ hostname ++ ")")

/-- Count (src/unnamed/part_004:120-128), the response envelope of the
Redis-era variant of the service: the backend descriptor travels in the
`redis_host` field, with `omitempty`. -/
structure CountRedis where
  count : Int
  hostname : String
  redisHost : String
  message : String
  deriving DecidableEq, Repr

/-- Names of the JSON fields emitted for a `CountRedis` value, honouring the
`omitempty` tags on `redis_host` and `message`. -/
def CountRedis.jsonFields (c : CountRedis) : List String :=
  ["count", "hostname"]
    ++ (if c.redisHost = "" then [] else ["redis_host"])
    ++ (if c.message = "" then [] else ["message"])

/-- CountHandler.ServeHTTP of the Redis-era variant
(src/unnamed/part_004:134-165): on `Incr` failure degrade with `count = -1`;
on success call `GetInfo`, ignore its error (`storeInfo, _ := ...`, so a
failed `GetInfo` leaves the descriptor at the zero value ""), and reply. -/
def CountHandler.ServeHTTPRedis (hostname : String)
    (incrResult : Except String Int) (infoResult : Except String String) :
    CountRedis :=
  match incrResult with
  | .error e =>
      { count := -1, hostname := hostname, redisHost := ""
        message := "Store Error: " ++ e }
  | .ok newCount =>
      { count := newCount, hostname := hostname
        redisHost := (match infoResult with | .ok s => s | .error _ => "")
        message := "" }

theorem getInfo_value_ne_empty (hostname : String) :
    "In-Memory (Host: " ++ hostname ++ ")" ≠ "" :=
  string_append_left_ne_empty ("In-Memory (Host: " ++ hostname) ")"
    (string_append_left_ne_empty "In-Memory (Host: " hostname (by decide))

/-- Counterexample to C8 as stated: in `main.go` the in-memory info
operation `GetDBNode` returns the empty string (not a non-empty hostname
label), and therefore the `db_node` field is omitted from the response on a
successful request rather than populated. -/
theorem C8_counterexample :
    InMemoryStore.GetDBNode (InMemoryStore.mk 0) = Except.ok "" ∧
    (CountHandler.ServeHTTP "myhost" (Except.ok 1)
      (InMemoryStore.GetDBNode (InMemoryStore.mk 0))).body.dbNode = "" ∧
    "db_node" ∉ (CountHandler.ServeHTTP "myhost" (Except.ok 1)
      (InMemoryStore.GetDBNode (InMemoryStore.mk 0))).body.jsonFields := by
  refine ⟨rfl, rfl, ?_⟩
  simp [CountHandler.ServeHTTP, InMemoryStore.GetDBNode, writeJSON, Count.jsonFields]

/-- C8 (amended): the in-memory info operation never returns an error.  In
the Redis-era variant (`GetInfo`, src/unnamed/part_004) it returns the
static non-empty label "In-Memory (Host: <hostname>)", which the count
handler places in the response's backend-descriptor field on every
successful request; in `main.go` (`GetDBNode`) it returns the empty string,
so the `db_node` field is omitted from the response. -/
theorem C8_inmemory_info (hostname : String) (m : InMemoryStore) (n : Int) :
    m.GetDBNode = Except.ok "" ∧
    InMemoryStore.GetInfo hostname
      = Except.ok ("In-Memory (Host: " ++ hostname ++ ")") ∧
    "In-Memory (Host: " ++ hostname ++ ")" ≠ "" ∧
    (CountHandler.ServeHTTPRedis hostname (Except.ok n)
        (InMemoryStore.GetInfo hostname)).redisHost
      = "In-Memory (Host: " ++ hostname ++ ")" ∧
    "redis_host" ∈ (CountHandler.ServeHTTPRedis hostname (Except.ok n)
        (InMemoryStore.GetInfo hostname)).jsonFields ∧
    "db_node" ∉ (CountHandler.ServeHTTP hostname (Except.ok n)
        m.GetDBNode).body.jsonFields := by
  refine ⟨rfl, rfl, getInfo_value_ne_empty hostname, rfl, ?_, ?_⟩
  · simp [CountHandler.ServeHTTPRedis, InMemoryStore.GetInfo, CountRedis.jsonFields,
      getInfo_value_ne_empty hostname]
  · simp [CountHandler.ServeHTTP, InMemoryStore.GetDBNode, writeJSON, Count.jsonFields]

/-- Witness for C8 (amended) at a concrete hostname, store and count. -/
theorem C8_inmemory_info_witness :
    (CountHandler.ServeHTTPRedis "web-1" (Except.ok 4)
        (InMemoryStore.GetInfo "web-1")).redisHost = "In-Memory (Host: web-1)" :=
  (C8_inmemory_info "web-1" (InMemoryStore.mk 0) 4).2.2.2.1

/-- unicode.IsSpace as used by strings.TrimSpace: the Unicode White_Space
code points. -/
def goIsSpace (c : Char) : Bool :=
  (9 ≤ c.val && c.val ≤ 13) || c.val == 32 || c.val == 0x85 || c.val == 0xA0 ||
  c.val == 0x1680 || (0x2000 ≤ c.val && c.val ≤ 0x200A) ||
  c.val == 0x2028 || c.val == 0x2029 || c.val == 0x202F ||
  c.val == 0x205F || c.val == 0x3000

/-- strings.TrimSpace: drop White_Space characters from both ends. -/
def trimSpace (s : List Char) : List Char :=
  ((s.dropWhile goIsSpace).reverse.dropWhile goIsSpace).reverse

/-- Decimal digit value of a character, if it is one. -/
def digitVal (c : Char) : Option Nat :=
  if '0' ≤ c ∧ c ≤ '9' then some (c.toNat - '0'.toNat) else none

/-- Accumulate the decimal value of a digit string; `none` on any
non-digit. -/
def parseDigits : List Char → Nat → Option Nat
  | [], acc => some acc
  | c :: rest, acc =>
      match digitVal c with
      | none => none
      | some d => parseDigits rest (acc * 10 + d)

/-- strconv.Atoi (equivalently strconv.ParseInt with base 10 and 64-bit
size, on a 64-bit platform): optional single sign, at least one digit, all
digits decimal, value within the `int64` range; any violation is an error
(`none`), including the out-of-range case, which Go reports as an error
alongside a clamped value the caller ignores. -/
def atoi (s : List Char) : Option Int :=
  match s with
  | [] => none
  | _ =>
      let signAndDigits : Bool × List Char :=
        match s with
        | '+' :: rest => (false, rest)
        | '-' :: rest => (true, rest)
        | _ => (false, s)
      match signAndDigits.2 with
      | [] => none
      | _ =>
          match parseDigits signAndDigits.2 0 with
          | none => none
          | some n =>
              if signAndDigits.1 then
                if (n : Int) > 9223372036854775808 then none else some (-(n : Int))
              else
                if (n : Int) > 9223372036854775807 then none else some (n : Int)

/-- defaultDBRequestTimeout (main.go:24): 1 second, in nanoseconds. -/
def defaultDBRequestTimeout : Int := 1000000000

/-- getDBRequestTimeout (main.go:223-236): trim the DB_REQUEST_TIMEOUT_MS
environment value; empty, non-numeric or non-positive values fall back to
the 1-second default; otherwise the result is
`time.Duration(ms) * time.Millisecond`, an `int64` multiplication that
wraps on overflow. -/
def getDBRequestTimeout (rawEnv : List Char) : Int :=
  let raw := trimSpace rawEnv
  if raw = [] then defaultDBRequestTimeout
  else
    match atoi raw with
    | none => defaultDBRequestTimeout
    | some ms => if ms ≤ 0 then defaultDBRequestTimeout else int64Wrap (ms * 1000000)

/-- Counterexample to C9 as stated: DB_REQUEST_TIMEOUT_MS=10000000000000 is
a positive integer that Atoi accepts, but 10^13 ms = 10^19 ns overflows
`int64`, so the function returns a negative duration rather than that many
milliseconds. -/
theorem C9_counterexample :
    getDBRequestTimeout ("10000000000000".toList) = -8446744073709551616 ∧
    ¬ (0 : Int) < -8446744073709551616 ∧
    (-8446744073709551616 : Int) ≠ 10000000000000 * 1000000 := by
  refine ⟨?_, by norm_num, by norm_num⟩
  decide

/-- C9 (amended): `getDBRequestTimeout` is total (the model is a Lean
function, mirroring that the Go code never panics) and defaulting: an
empty-after-trimming, non-numeric, or non-positive DB_REQUEST_TIMEOUT_MS
yields the 1-second default; a positive integer value ms yields exactly ms
milliseconds, and a positive duration, whenever ms * 10^6 fits in `int64`
(ms ≤ 9223372036854); beyond that the `int64` multiplication overflows, see
the counterexample. -/
theorem C9_timeout_defaulting (rawEnv : List Char) :
    (trimSpace rawEnv = [] → getDBRequestTimeout rawEnv = defaultDBRequestTimeout) ∧
    (atoi (trimSpace rawEnv) = none →
      getDBRequestTimeout rawEnv = defaultDBRequestTimeout) ∧
    (∀ ms, atoi (trimSpace rawEnv) = some ms → ms ≤ 0 →
      getDBRequestTimeout rawEnv = defaultDBRequestTimeout) ∧
    (∀ ms, atoi (trimSpace rawEnv) = some ms → 0 < ms → ms ≤ 9223372036854 →
      getDBRequestTimeout rawEnv = ms * 1000000 ∧ 0 < getDBRequestTimeout rawEnv) := by
  refine ⟨?_, ?_, ?_, ?_⟩
  · intro h
    simp [getDBRequestTimeout, h]
  · intro h
    by_cases he : trimSpace rawEnv = []
    · simp [getDBRequestTimeout, he]
    · simp [getDBRequestTimeout, he, h]
  · intro ms hms hle
    by_cases he : trimSpace rawEnv = []
    · rw [he] at hms
      cases hms
    · simp [getDBRequestTimeout, he, hms, hle]
  · intro ms hms h0 hbound
    by_cases he : trimSpace rawEnv = []
    · rw [he] at hms
      cases hms
    · have hwrap : int64Wrap (ms * 1000000) = ms * 1000000 := by
        apply int64Wrap_of_bounded <;> omega
      have hres : getDBRequestTimeout rawEnv = ms * 1000000 := by
        simp only [getDBRequestTimeout, if_neg he, hms]
        rw [if_neg (by omega)]
        exact hwrap
      exact ⟨hres, by rw [hres]; omega⟩

/-- Witness for C9 (amended): DB_REQUEST_TIMEOUT_MS=" 250 " parses to 250
and yields 250 ms = 250000000 ns. -/
theorem C9_timeout_defaulting_witness :
    getDBRequestTimeout (" 250 ".toList) = 250 * 1000000 ∧
    0 < getDBRequestTimeout (" 250 ".toList) :=
  (C9_timeout_defaulting (" 250 ".toList)).2.2.2 250 (by decide) (by decide) (by decide)

/-- Index of the first occurrence of character c in s, as Go
`bytealg.IndexByteString` (ASCII characters never match inside a UTF-8
multi-byte sequence, so the byte index and the character index pick out the
same occurrence). -/
def firstIdx (s : List Char) (c : Char) : Option Nat :=
  s.findIdx? (fun x => x = c)

/-- Index of the last occurrence of character c in s, as Go
`stringslite.LastIndexByte`. -/
def lastIdx (s : List Char) (c : Char) : Option Nat :=
  match (s.reverse).findIdx? (fun x => x = c) with
  | none => none
  | some j => some (s.length - 1 - j)

/-- net.SplitHostPort: split "host:port", "[host]:port" into host and port;
`none` models any of its error returns (missing port, too many colons,
missing or unexpected brackets). -/
def splitHostPort (s : List Char) : Option (List Char × List Char) :=
  match lastIdx s ':' with
  | none => none
  | some i =>
      match s with
      | [] => none
      | c0 :: _ =>
          if c0 = '[' then
            match firstIdx s ']' with
            | none => none
            | some e =>
                if e + 1 = s.length then none
                else if e + 1 = i then
                  if '[' ∈ s.drop 1 then none
                  else if ']' ∈ s.drop (e + 1) then none
                  else some ((s.take e).drop 1, s.drop (i + 1))
                else none
          else
            if ':' ∈ s.take i then none
            else if '[' ∈ s then none
            else if ']' ∈ s then none
            else some (s.take i, s.drop (i + 1))

/-- net.JoinHostPort: bracket the host iff it contains a colon. -/
def joinHostPort (host port : List Char) : List Char :=
  if ':' ∈ host then
    '[' :: host ++ ']' :: ':' :: port
  else
    host ++ ':' :: port

/-- defaultDNSPort (main.go:26). -/
def defaultDNSPort : List Char := ['5', '3']

/-- normalizeDNSServerAddr (main.go:238-243): leave the address alone when
it already splits as host:port, otherwise append the default DNS port. -/
def normalizeDNSServerAddr (dnsServer : List Char) : List Char :=
  match splitHostPort dnsServer with
  | some _ => dnsServer
  | none => joinHostPort dnsServer defaultDNSPort

/-- Counterexample to C10 as stated: on the input "]" the function is not
idempotent.  "]" does not split, so one application yields "]:53"; that
still does not split (SplitHostPort rejects the stray ']'), so a second
application yields "[]:53]:53". -/
theorem C10_counterexample :
    normalizeDNSServerAddr [']'] = [']', ':', '5', '3'] ∧
    normalizeDNSServerAddr (normalizeDNSServerAddr [']'])
      ≠ normalizeDNSServerAddr [']'] := by
  constructor
  · decide
  · decide


theorem splitHostPort_plain_append (c : Char) (s' : List Char)
    (hc : ':' ∉ c :: s') (hb1 : '[' ∉ c :: s') (hb2 : ']' ∉ c :: s') :
    splitHostPort ((c :: s') ++ [':', '5', '3']) = some (c :: s', ['5', '3']) := by
  have hlast : lastIdx (c :: (s' ++ [':', '5', '3'])) ':' = some (s'.length + 1) := by
    unfold lastIdx
    have hrev : (c :: (s' ++ [':', '5', '3'])).reverse
        = '3' :: '5' :: ':' :: (s'.reverse ++ [c]) := by simp
    rw [hrev]
    have hf : ('3' :: '5' :: ':' :: (s'.reverse ++ [c])).findIdx? (fun x => x = ':')
        = some 2 := by
      simp [List.findIdx?_cons]
    rw [hf]
    refine congrArg some ?_
    simp
  have hhead : ¬ (c = '[') := fun h => hb1 (by rw [h]; exact List.mem_cons_self '[' s')
  have htake : List.take (s'.length + 1) (c :: (s' ++ [':', '5', '3'])) = c :: s' := by
    rw [List.take_succ_cons, List.take_left]
  have hdrop : List.drop (s'.length + 1 + 1) (c :: (s' ++ [':', '5', '3'])) = ['5', '3'] := by
    rw [List.drop_succ_cons]
    rw [show s' ++ [':', '5', '3'] = (s' ++ [':']) ++ ['5', '3'] by simp]
    exact List.drop_left' (by simp)
  have hm1 : ¬ (':' ∈ c :: s') := hc
  have hm2 : ¬ ('[' ∈ c :: (s' ++ [':', '5', '3'])) := by
    intro h
    rcases List.mem_cons.mp h with h | h
    · exact hb1 (by rw [← h]; exact List.mem_cons_self '[' s')
    · rcases List.mem_append.mp h with h | h
      · exact hb1 (List.mem_cons_of_mem c h)
      · simp at h
  have hm3 : ¬ (']' ∈ c :: (s' ++ [':', '5', '3'])) := by
    intro h
    rcases List.mem_cons.mp h with h | h
    · exact hb2 (by rw [← h]; exact List.mem_cons_self ']' s')
    · rcases List.mem_append.mp h with h | h
      · exact hb2 (List.mem_cons_of_mem c h)
      · simp at h
  show splitHostPort (c :: (s' ++ [':', '5', '3'])) = some (c :: s', ['5', '3'])
  unfold splitHostPort
  rw [hlast]
  show (if c = '[' then _ else _) = _
  rw [if_neg hhead]
  rw [htake]
  rw [if_neg hm1, if_neg hm2, if_neg hm3, hdrop]

theorem splitHostPort_bracket_append (s : List Char)
    (hb1 : '[' ∉ s) (hb2 : ']' ∉ s) :
    splitHostPort ('[' :: (s ++ [']', ':', '5', '3'])) = some (s, ['5', '3']) := by
  have hlast : lastIdx ('[' :: (s ++ [']', ':', '5', '3'])) ':' = some (s.length + 2) := by
    unfold lastIdx
    have hrev : ('[' :: (s ++ [']', ':', '5', '3'])).reverse
        = '3' :: '5' :: ':' :: ']' :: (s.reverse ++ ['[']) := by simp
    rw [hrev]
    have hf : ('3' :: '5' :: ':' :: ']' :: (s.reverse ++ ['['])).findIdx? (fun x => x = ':')
        = some 2 := by
      simp [List.findIdx?_cons]
    rw [hf]
    refine congrArg some ?_
    simp
  have hfirst : firstIdx ('[' :: (s ++ [']', ':', '5', '3'])) ']' = some (s.length + 1) := by
    unfold firstIdx
    rw [show '[' :: (s ++ [']', ':', '5', '3'])
          = ('[' :: s) ++ [']', ':', '5', '3'] by simp]
    rw [List.findIdx?_append]
    have hnone : (('[' :: s).findIdx? (fun x => x = ']')) = none := by
      rw [List.findIdx?_eq_none_iff]
      intro x hx
      rcases List.mem_cons.mp hx with h | h
      · rw [h]; decide
      · simp only [decide_eq_false_iff_not]
        intro hxe
        exact hb2 (hxe ▸ h)
    have hsecond : ([']', ':', '5', '3'].findIdx? (fun x => x = ']')) = some 0 := by
      decide
    rw [hnone, hsecond]
    simp
  have hlen : ¬ (s.length + 1 + 1 = ('[' :: (s ++ [']', ':', '5', '3'])).length) := by
    simp
  have hd1 : List.drop 1 ('[' :: (s ++ [']', ':', '5', '3'])) = s ++ [']', ':', '5', '3'] := rfl
  have hm1 : ¬ ('[' ∈ s ++ [']', ':', '5', '3']) := by
    intro h
    rcases List.mem_append.mp h with h | h
    · exact hb1 h
    · simp at h
  have hdrope : List.drop (s.length + 1 + 1) ('[' :: (s ++ [']', ':', '5', '3']))
      = [':', '5', '3'] := by
    rw [show '[' :: (s ++ [']', ':', '5', '3'])
          = ('[' :: s ++ [']']) ++ [':', '5', '3'] by simp]
    exact List.drop_left' (by simp)
  have htake : List.take (s.length + 1) ('[' :: (s ++ [']', ':', '5', '3'])) = '[' :: s := by
    rw [show '[' :: (s ++ [']', ':', '5', '3'])
          = ('[' :: s) ++ [']', ':', '5', '3'] by simp]
    exact List.take_left' (by simp)
  have hport : List.drop (s.length + 2 + 1) ('[' :: (s ++ [']', ':', '5', '3']))
      = ['5', '3'] := by
    rw [show '[' :: (s ++ [']', ':', '5', '3'])
          = ('[' :: s ++ [']', ':']) ++ ['5', '3'] by simp]
    exact List.drop_left' (by simp)
  unfold splitHostPort
  rw [hlast]
  show (if ('[' : Char) = '[' then _ else _) = _
  rw [if_pos rfl]
  rw [hfirst]
  show (if s.length + 1 + 1 = ('[' :: (s ++ [']', ':', '5', '3'])).length then none
        else if s.length + 1 + 1 = s.length + 2 then
          if '[' ∈ List.drop 1 ('[' :: (s ++ [']', ':', '5', '3'])) then none
          else if ']' ∈ List.drop (s.length + 1 + 1) ('[' :: (s ++ [']', ':', '5', '3'])) then
            none
          else
            some (List.drop 1 (List.take (s.length + 1) ('[' :: (s ++ [']', ':', '5', '3']))),
              List.drop (s.length + 2 + 1) ('[' :: (s ++ [']', ':', '5', '3'])))
        else none)
      = some (s, ['5', '3'])
  rw [if_neg hlen]
  rw [if_pos (by omega : s.length + 1 + 1 = s.length + 2)]
  rw [hd1]
  rw [if_neg hm1]
  rw [hdrope]
  rw [if_neg (by decide : ¬ (']' ∈ [':', '5', '3']))]
  rw [htake, hport]
  rfl

/-- C10 (amended): `normalizeDNSServerAddr` returns any address that already
splits as host:port unchanged, and it is idempotent on every input that
contains no square bracket.  (On inputs with a stray bracket, such as "]",
appending ":53" can produce an address that still fails to split, so a
second application wraps it again — see the counterexample.) -/
theorem C10_normalize_idempotent (s : List Char) :
    (∀ hp, splitHostPort s = some hp → normalizeDNSServerAddr s = s) ∧
    ('[' ∉ s → ']' ∉ s →
      normalizeDNSServerAddr (normalizeDNSServerAddr s) = normalizeDNSServerAddr s) := by
  constructor
  · intro hp h
    unfold normalizeDNSServerAddr
    rw [h]
  · intro hb1 hb2
    cases hsplit : splitHostPort s with
    | some hp =>
        have h1 : normalizeDNSServerAddr s = s := by
          unfold normalizeDNSServerAddr
          rw [hsplit]
        rw [h1]
        exact h1
    | none =>
        have h1 : normalizeDNSServerAddr s = joinHostPort s defaultDNSPort := by
          unfold normalizeDNSServerAddr
          rw [hsplit]
        rw [h1]
        by_cases hc : ':' ∈ s
        · have hj : joinHostPort s defaultDNSPort = '[' :: (s ++ [']', ':', '5', '3']) := by
            unfold joinHostPort defaultDNSPort
            rw [if_pos hc]
            simp
          rw [hj]
          have hsp := splitHostPort_bracket_append s hb1 hb2
          unfold normalizeDNSServerAddr
          rw [hsp]
        · cases s with
          | nil => decide
          | cons c s' =>
              have hj : joinHostPort (c :: s') defaultDNSPort
                  = (c :: s') ++ [':', '5', '3'] := by
                unfold joinHostPort defaultDNSPort
                rw [if_neg hc]
              rw [hj]
              have hsp := splitHostPort_plain_append c s' hc hb1 hb2
              unfold normalizeDNSServerAddr
              rw [hsp]

/-- Witness for C10 (amended): a valid host:port address is returned
unchanged, and a bare IP address normalizes idempotently. -/
theorem C10_normalize_idempotent_witness :
    normalizeDNSServerAddr ("127.0.0.1:53".toList) = "127.0.0.1:53".toList ∧
    normalizeDNSServerAddr (normalizeDNSServerAddr ("10.0.0.2".toList))
      = normalizeDNSServerAddr ("10.0.0.2".toList) :=
  ⟨(C10_normalize_idempotent ("127.0.0.1:53".toList)).1
      ("127.0.0.1".toList, "53".toList) (by decide),
   (C10_normalize_idempotent ("10.0.0.2".toList)).2 (by decide) (by decide)⟩
